import Mathlib

/-!
Shallow embedding of the maath repository (src/main.rs), a minimal
symbolic-function evaluator.

Modelling conventions:
* Rust `f64` numbers are embedded as `ℚ` (exact arithmetic).  `f64::powf`
  is modelled by `powf` below, exact on integer exponents (the only shape
  of exponent the repository's claims exercise); a fractional exponent
  generally has an irrational value and lies outside the exact embedding.
* `anyhow::Error` (a base error decorated by `.context(...)` calls) is the
  structure `AnyhowError`: the underlying `MyError` plus the stack of
  context messages, most recent first.
* `Result<T>` is `Except AnyhowError T`.
* The panicking `HashMap` index `args[&x]` in `FunctionTerm::solve` is a
  process abort, not an `Err`; evaluation results that can abort are
  wrapped in `Option`, with `none` standing for the abort.
* `HashMap<char, f64>` is modelled extensionally as `Bindings := Char →
  Option ℚ`; building a map by `collect` over an iterator of pairs is
  `collectBindings` (left fold of inserts, later pairs overwriting
  earlier ones, exactly `FromIterator for HashMap`).
* Rust identifiers are kept; the leading underscore of `_Plus`, `_Minus`,
  `_Multiply`, `_Divide` and `Value::_Calculation` is dropped.
-/

deriving instance DecidableEq for Except

namespace Maath

/-- The error enum `MyError` from src/main.rs.  The field of
`NoSuchVariable` is called `variable` in the source; that word is a Lean
keyword, so it is spelt `variableName` here. -/
inductive MyError where
  | DivisionByZero
  | NoSuchVariable (variableName : Char)
deriving DecidableEq, Repr

/-- An `anyhow::Error`: the base `MyError` plus the context messages that
`.context(...)` pushed onto it, most recent first. -/
structure AnyhowError where
  contexts : List String
  base : MyError
deriving DecidableEq, Repr

/-- The effect of `anyhow::Context::context(msg)` on an error. -/
def pushContext (msg : String) (e : AnyhowError) : AnyhowError :=
  { e with contexts := msg :: e.contexts }

/-- The message of `.context("Failed to solve the left hand side.")`. -/
def leftMsg : String := "Failed to solve the left hand side."

/-- The message of `.context("Failed to solve the right hand side.")`. -/
def rightMsg : String := "Failed to solve the right hand side."

/-- The `Operation` enum (underscores of the unused variants dropped). -/
inductive Operation where
  | Plus
  | Minus
  | Multiply
  | Divide
  | Pow
deriving DecidableEq, Repr

/-- Model of `f64::powf`.  For an integer exponent it is exact
(`l.powf e = l ^ e` for every finite `l` and integer `e` in range); a
fractional exponent generally yields an irrational number, which the
exact rational embedding cannot represent, so that case is mapped to a
junk value that no theorem below relies on. -/
def powf (l e : ℚ) : ℚ :=
  if e.den = 1 then
    if 0 ≤ e.num then l ^ e.num.toNat else (l ^ (-e.num).toNat)⁻¹
  else 0

/-- `Operation::apply` from src/main.rs. -/
def Operation.apply : Operation → ℚ → ℚ → Except AnyhowError ℚ
  | .Plus, left, right => Except.ok (left + right)
  | .Minus, left, right => Except.ok (left - right)
  | .Multiply, left, right => Except.ok (left * right)
  | .Divide, left, right =>
      if right = 0 then Except.error (AnyhowError.mk [] MyError.DivisionByZero)
      else Except.ok (left / right)
  | .Pow, left, right => Except.ok (powf left right)

/-- The `Value` enum: a closed numeric expression (underscore of
`_Calculation` dropped). -/
inductive Value where
  | Literal (x : ℚ)
  | Calculation (left : Value) (right : Value) (operation : Operation)
deriving DecidableEq, Repr

/-- `Value::get` from src/main.rs: evaluate the left child, annotating a
failure with `leftMsg`; then the right child, annotating with `rightMsg`;
then combine with `operation.apply`. -/
def Value.get : Value → Except AnyhowError ℚ
  | .Literal x => Except.ok x
  | .Calculation left right operation =>
      match left.get with
      | Except.error e => Except.error (pushContext leftMsg e)
      | Except.ok lv =>
        match right.get with
        | Except.error e => Except.error (pushContext rightMsg e)
        | Except.ok rv => operation.apply lv rv

/-- The `FunctionTerm` enum: the general expression tree. -/
inductive FunctionTerm where
  | Variable (name : Char)
  | Value (v : Value)
  | Calculation (left : FunctionTerm) (right : FunctionTerm)
      (operation : Operation)
deriving DecidableEq, Repr

/-- The binding context: `HashMap<char, f64>` viewed extensionally. -/
def Bindings : Type := Char → Option ℚ

/-- The empty binding map. -/
def emptyBindings : Bindings := fun _ => none

/-- `HashMap::insert` of one key/value pair (the new pair wins). -/
def insertBinding (m : Bindings) (p : Char × ℚ) : Bindings :=
  fun c => if c = p.1 then some p.2 else m c

/-- `collect::<HashMap<_, _>>()` over a list of pairs: insert the pairs in
order into the empty map, each later pair overwriting an earlier one with
the same key. -/
def collectBindings (ps : List (Char × ℚ)) : Bindings :=
  ps.foldl insertBinding emptyBindings

/-- `FunctionTerm::solve` from src/main.rs.  The result is wrapped in
`Option`: `none` is the process abort that the unchecked map index
`args[&x]` performs on a missing key; `some` carries the ordinary
`Result`.  The left child is solved first and its failure, annotated with
`leftMsg`, is returned without touching the right child; then the right
child, annotated with `rightMsg`; then `operation.apply`. -/
def FunctionTerm.solve : FunctionTerm → Bindings → Option (Except AnyhowError ℚ)
  | .Value x, _ => some x.get
  | .Variable x, args =>
      match args x with
      | some v => some (Except.ok v)
      | none => none
  | .Calculation left right operation, args =>
      match left.solve args with
      | none => none
      | some (Except.error e) => some (Except.error (pushContext leftMsg e))
      | some (Except.ok lv) =>
        match right.solve args with
        | none => none
        | some (Except.error e) => some (Except.error (pushContext rightMsg e))
        | some (Except.ok rv) => some (operation.apply lv rv)

/-- The variable names occurring in a term (used to state the caller's
binding obligation). -/
def FunctionTerm.vars : FunctionTerm → List Char
  | .Variable x => [x]
  | .Value _ => []
  | .Calculation left right _ => left.vars ++ right.vars

/-- The `Function` struct: declared parameter names plus the body term. -/
structure Function where
  arguments : List Char
  term : FunctionTerm

/-- `Function::solve_for` from src/main.rs. -/
def Function.solve_for (f : Function) (args : Bindings) :
    Option (Except AnyhowError ℚ) :=
  f.term.solve args

/-- `Function::solve_args_in_order` from src/main.rs: zip the declared
arguments with the supplied values positionally, collect the pairs into a
binding map, and delegate to `solve_for`. -/
def Function.solve_args_in_order (f : Function) (in_order : List ℚ) :
    Option (Except AnyhowError ℚ) :=
  f.solve_for (collectBindings (f.arguments.zip in_order))

/-- `Function::variable` from src/main.rs: error on an undeclared name,
otherwise a `Variable` term. -/
def Function.variable (f : Function) (name : Char) :
    Except AnyhowError FunctionTerm :=
  if f.arguments.contains name then Except.ok (FunctionTerm.Variable name)
  else Except.error (AnyhowError.mk [] (MyError.NoSuchVariable name))

/-- The function built by `f!('x')` in `main`: declared arguments `['x']`
and the placeholder body `Value(Literal(0.))`. -/
def demoF0 : Function :=
  { arguments := ['x'], term := FunctionTerm.Value (Value.Literal 0) }

/-- `main`'s `f` after its body is overwritten: the left child is
`f.variable('x').unwrap()` (modelled by taking the `ok` payload, with a
placeholder default standing for the never-taken `unwrap` abort), the
right child is `2.into()` (= `Value(Literal(2 as f64))`), the operation
`Pow`; so `f(x) = x ^ 2`. -/
def demoF : Function :=
  { demoF0 with
      term := FunctionTerm.Calculation
        ((demoF0.variable 'x').toOption.getD (FunctionTerm.Value (Value.Literal 0)))
        (FunctionTerm.Value (Value.Literal 2))
        Operation.Pow }

/-- The inputs of `main`'s loop: each integer from 0 to 10 inclusive, cast
to a number. -/
def mainInputs : List ℚ := (List.range 11).map fun n => (n : ℚ)

/-- The evaluation results `main` unwraps and prints:
`solve!(f(x)) = f.solve_args_in_order(vec![x])` for each loop input. -/
def mainResults : List (Option (Except AnyhowError ℚ)) :=
  mainInputs.map fun x => demoF.solve_args_in_order [x]

/-- A `Function` whose argument list repeats the name `x` — constructible
because nothing in the code checks the argument list for duplicates. -/
def dupF : Function :=
  { arguments := ['x', 'x'], term := FunctionTerm.Variable 'x' }

/-- A concrete binding map holding only `x ↦ 5`. -/
def bindX5 : Bindings := fun c => if c = 'x' then some 5 else none

/-! Helper lemmas about zipping and binding maps. -/

theorem zip_map_fst :
    ∀ (l₁ : List Char) (l₂ : List ℚ),
      (l₁.zip l₂).map Prod.fst = l₁.take l₂.length
  | [], _ => by simp
  | _ :: _, [] => by simp
  | a :: l₁, b :: l₂ => by simp [zip_map_fst l₁ l₂]

theorem zip_map_snd :
    ∀ (l₁ : List Char) (l₂ : List ℚ),
      (l₁.zip l₂).map Prod.snd = l₂.take l₁.length
  | [], _ => by simp
  | _ :: _, [] => by simp
  | a :: l₁, b :: l₂ => by simp [zip_map_snd l₁ l₂]

theorem foldl_insertBinding_no_key :
    ∀ (qs : List (Char × ℚ)) (m : Bindings) (c : Char),
      (∀ p ∈ qs, p.1 ≠ c) → qs.foldl insertBinding m c = m c
  | [], _, _, _ => rfl
  | p :: qs, m, c, h => by
    have hp : p.1 ≠ c := h p (List.mem_cons_self p qs)
    have ih := foldl_insertBinding_no_key qs (insertBinding m p) c
      (fun q hq => h q (List.mem_cons_of_mem p hq))
    simp only [List.foldl_cons]
    rw [ih]
    simp [insertBinding, hp.symm]

/-! The claim theorems. -/

/-- C1: for every pair of numbers `a` and `b`, `Operation::Divide.apply(a, b)`
fails with `DivisionByZero` exactly when `b == 0` under exact equality (no
epsilon tolerance), and otherwise returns `a / b`. -/
theorem divide_apply_spec (a b : ℚ) :
    (Operation.apply Operation.Divide a b
        = Except.error (AnyhowError.mk [] MyError.DivisionByZero) ↔ b = 0) ∧
    (Operation.apply Operation.Divide a b = Except.ok (a / b) ↔ b ≠ 0) := by
  rcases eq_or_ne b 0 with h | h <;> simp [Operation.apply, h]

/-- C2: resolving a `Variable(name)` term in `FunctionTerm::solve` is an
unchecked lookup in the binding map: when every variable occurring in the
term has a binding, `solve` never aborts; a bare `Variable(p)` term solved
with any binding containing `p` returns exactly the bound value; and an
absent key aborts (result `none`) rather than returning an error. -/
theorem solve_unchecked_lookup_spec :
    (∀ (t : FunctionTerm) (args : Bindings),
        (∀ v ∈ t.vars, (args v).isSome = true) → t.solve args ≠ none) ∧
    (∀ (p : Char) (x : ℚ) (args : Bindings),
        args p = some x →
        (FunctionTerm.Variable p).solve args = some (Except.ok x)) ∧
    (∀ (p : Char) (args : Bindings),
        args p = none → (FunctionTerm.Variable p).solve args = none) := by
  refine ⟨?_, ?_, ?_⟩
  · intro t
    induction t with
    | Variable x =>
      intro args h
      have hx : (args x).isSome = true := h x (by simp [FunctionTerm.vars])
      cases hargs : args x with
      | none => rw [hargs] at hx; simp at hx
      | some v => simp [FunctionTerm.solve, hargs]
    | Value v => intro args h; simp [FunctionTerm.solve]
    | Calculation l r op ihl ihr =>
      intro args h
      have hl := ihl args (fun v hv => h v (by
        simp only [FunctionTerm.vars, List.mem_append]; exact Or.inl hv))
      have hr := ihr args (fun v hv => h v (by
        simp only [FunctionTerm.vars, List.mem_append]; exact Or.inr hv))
      simp only [FunctionTerm.solve]
      cases hls : l.solve args with
      | none => exact absurd hls hl
      | some lr =>
        cases lr with
        | error e => simp
        | ok lv =>
          cases hrs : r.solve args with
          | none => exact absurd hrs hr
          | some rr => cases rr <;> simp [hrs]
  · intro p x args h
    simp [FunctionTerm.solve, h]
  · intro p args h
    simp [FunctionTerm.solve, h]

/-- Witness for C2 at a concrete term and binding map. -/
theorem solve_unchecked_lookup_witness :
    (FunctionTerm.Variable 'x').solve bindX5 = some (Except.ok 5) :=
  solve_unchecked_lookup_spec.2.1 'x' 5 bindX5 (by decide)

/-- C3: for every name, `Function::variable(name)` fails with
`NoSuchVariable` carrying that name exactly when the name is not among the
declared arguments, and otherwise succeeds returning the term
`FunctionTerm::Variable(name)`. -/
theorem variable_decl_spec (f : Function) (name : Char) :
    (f.variable name
        = Except.error (AnyhowError.mk [] (MyError.NoSuchVariable name))
      ↔ name ∉ f.arguments) ∧
    (f.variable name = Except.ok (FunctionTerm.Variable name)
      ↔ name ∈ f.arguments) := by
  by_cases h : name ∈ f.arguments <;> simp [Function.variable, h]

/-- C4: `solve_args_in_order` zips the declared arguments (in order) with
the values positionally, the pairing truncating to the shorter sequence
without error, builds the binding map from the pairs, and returns exactly
what `solve_for` returns on that map. -/
theorem solve_args_zip_spec (f : Function) (values : List ℚ) :
    f.solve_args_in_order values
        = f.solve_for (collectBindings (f.arguments.zip values)) ∧
    (f.arguments.zip values).length
        = min f.arguments.length values.length ∧
    (f.arguments.zip values).map Prod.fst = f.arguments.take values.length ∧
    (f.arguments.zip values).map Prod.snd = values.take f.arguments.length :=
  ⟨rfl, by simp, zip_map_fst f.arguments values, zip_map_snd f.arguments values⟩

/-- C5: for every `Calculation` node (in `FunctionTerm::solve` and in
`Value::get`), the left child is evaluated first and its failure is
propagated — annotated with the left-hand-side context and regardless of
the right child; a right-child failure is annotated with the
right-hand-side context; when both children succeed the result is
`operation.apply` of the two child results; the annotation preserves the
underlying error kind. -/
theorem calculation_order_spec (l r : FunctionTerm) (vl vr : Value)
    (op : Operation) (args : Bindings) :
    (∀ e, l.solve args = some (Except.error e) →
      (FunctionTerm.Calculation l r op).solve args
        = some (Except.error (pushContext leftMsg e))) ∧
    (∀ x e, l.solve args = some (Except.ok x) →
        r.solve args = some (Except.error e) →
      (FunctionTerm.Calculation l r op).solve args
        = some (Except.error (pushContext rightMsg e))) ∧
    (∀ x y, l.solve args = some (Except.ok x) →
        r.solve args = some (Except.ok y) →
      (FunctionTerm.Calculation l r op).solve args
        = some (op.apply x y)) ∧
    (∀ e, vl.get = Except.error e →
      (Value.Calculation vl vr op).get
        = Except.error (pushContext leftMsg e)) ∧
    (∀ x e, vl.get = Except.ok x → vr.get = Except.error e →
      (Value.Calculation vl vr op).get
        = Except.error (pushContext rightMsg e)) ∧
    (∀ x y, vl.get = Except.ok x → vr.get = Except.ok y →
      (Value.Calculation vl vr op).get = op.apply x y) ∧
    (∀ m e, (pushContext m e).base = e.base) := by
  refine ⟨?_, ?_, ?_, ?_, ?_, ?_, ?_⟩
  · intro e he; simp [FunctionTerm.solve, he]
  · intro x e hx he; simp [FunctionTerm.solve, hx, he]
  · intro x y hx hy; simp [FunctionTerm.solve, hx, hy]
  · intro e he; simp [Value.get, he]
  · intro x e hx he; simp [Value.get, hx, he]
  · intro x y hx hy; simp [Value.get, hx, hy]
  · intro m e; rfl

/-- Witness for C5: both children succeed at a concrete calculation. -/
theorem calculation_order_witness :
    (FunctionTerm.Calculation (FunctionTerm.Value (Value.Literal 1))
        (FunctionTerm.Value (Value.Literal 2)) Operation.Plus).solve
        emptyBindings
      = some (Operation.apply Operation.Plus 1 2) :=
  (calculation_order_spec (FunctionTerm.Value (Value.Literal 1))
      (FunctionTerm.Value (Value.Literal 2)) (Value.Literal 0)
      (Value.Literal 0) Operation.Plus emptyBindings).2.2.1 1 2 rfl rfl

/-- C6: for `f(x) = x^2` (parameters `['x']`, body
`Calculation{left: Variable('x'), right: Value(Literal(2)), operation:
Pow}`), `solve_args_in_order` yields 0, 9, 100 and 4 at 0, 3, 10 and −2,
and `main` evaluates exactly this `f` at each integer 0..10, every
evaluation succeeding with `x^2`. -/
theorem demo_square_spec :
    demoF.arguments = ['x'] ∧
    demoF.term = FunctionTerm.Calculation (FunctionTerm.Variable 'x')
        (FunctionTerm.Value (Value.Literal 2)) Operation.Pow ∧
    demoF.solve_args_in_order [0] = some (Except.ok 0) ∧
    demoF.solve_args_in_order [3] = some (Except.ok 9) ∧
    demoF.solve_args_in_order [10] = some (Except.ok 100) ∧
    demoF.solve_args_in_order [-2] = some (Except.ok 4) ∧
    mainResults
      = (List.range 11).map (fun n => some (Except.ok ((n : ℚ) ^ 2))) := by
  refine ⟨by decide, by decide, by decide, by decide, by decide, by decide,
    by decide⟩

/-- C7: `Operation::apply` returns `left + right` for `Plus`,
`left - right` for `Minus`, `left * right` for `Multiply`, and the power
`powf left right` for `Pow`, never failing for these four operations; in
particular `Pow.apply(3, 2) = 9`, `Pow.apply(2, 0) = 1`, and
`Pow.apply(0, 0) = 1`. -/
theorem apply_arithmetic_spec (l r : ℚ) :
    Operation.apply Operation.Plus l r = Except.ok (l + r) ∧
    Operation.apply Operation.Minus l r = Except.ok (l - r) ∧
    Operation.apply Operation.Multiply l r = Except.ok (l * r) ∧
    Operation.apply Operation.Pow l r = Except.ok (powf l r) ∧
    Operation.apply Operation.Pow 3 2 = Except.ok 9 ∧
    Operation.apply Operation.Pow 2 0 = Except.ok 1 ∧
    Operation.apply Operation.Pow 0 0 = Except.ok 1 :=
  ⟨rfl, rfl, rfl, rfl, by decide, by decide, by decide⟩

/-- C8 counterexample: `dupF`, built with the same struct construction the
`f!` macro expands to, has the duplicated argument list `['x', 'x']`, so
not every constructible `Function` has pairwise-distinct parameter
names. -/
theorem arguments_dup_counterexample : ¬ dupF.arguments.Nodup := by decide

/-- C8 (amended): distinctness of parameter names is not enforced
anywhere in the code — every argument list, duplicates included, is the
argument list of some constructible `Function`, and such a `Function` is
accepted by evaluation. -/
theorem arguments_unchecked_spec :
    (∀ l : List Char, ∃ f : Function, f.arguments = l) ∧
    dupF.arguments = ['x', 'x'] ∧
    ¬ dupF.arguments.Nodup ∧
    dupF.solve_args_in_order [1, 2] = some (Except.ok 2) :=
  ⟨fun l => ⟨⟨l, FunctionTerm.Value (Value.Literal 0)⟩, rfl⟩, rfl,
    by decide, by decide⟩

/-- C10: when the same parameter name occurs more than once in a
`Function`'s arguments, the binding map built by `solve_args_in_order`
binds that name to the supplied value at the position of its last
occurrence (each later zipped pair overwrites the earlier one), so the
earlier positional values for the duplicated name are discarded. -/
theorem duplicate_binding_spec :
    (∀ (ps qs : List (Char × ℚ)) (c : Char) (v : ℚ),
        (∀ p ∈ qs, p.1 ≠ c) →
        collectBindings (ps ++ (c, v) :: qs) c = some v) ∧
    (∀ a b : ℚ, dupF.solve_args_in_order [a, b] = some (Except.ok b)) := by
  constructor
  · intro ps qs c v h
    unfold collectBindings
    rw [List.foldl_append]
    simp only [List.foldl_cons]
    rw [foldl_insertBinding_no_key qs _ c h]
    simp [insertBinding]
  · intro a b
    simp [Function.solve_args_in_order, Function.solve_for, dupF,
      FunctionTerm.solve, collectBindings, insertBinding, emptyBindings]

/-- Witness for C10: two pairs with the same key collect to the second
value. -/
theorem duplicate_binding_witness :
    collectBindings [('x', 1), ('x', 2)] 'x' = some 2 :=
  duplicate_binding_spec.1 [('x', 1)] [] 'x' 2 (by simp)

end Maath
